import Mathlib

/-!
Shallow embedding of the instruction-level resource-profiling tracers of the
Olaburns/go-ethereum fork (package `eth/tracers/native`): the cycles tracer
(`cycles.go`), the timing tracer (`timing.go`), the file-backed memory tracer
(`memory.go`), and the in-memory transaction memory tracer
(`memoryTransactionTracer`).

Modelling conventions:
* Go `int` / `uint64` gas values are embedded as `Int`; all gas quantities in
  the traced scenarios fit well below 2^63, so no wraparound is modelled.
* The external resource samplers (perf-utils CPU-cycle counters, wall clocks,
  `runtime.ReadMemStats`, the filesystem) are collaborators outside this
  repository; their outcome on each call is passed to the embedded callback as
  an explicit argument (a sampled value, an `Option` for fallible reads, or a
  `Bool` for write success).
* The perf file descriptor pair (`cb`, `fd`) of the cycles tracer and the
  `time.Time` of the timing tracer are handles of the external sampler; they
  never influence the recorded series, so they are not part of the embedded
  state and the callbacks that only touch them (`CaptureStart`,
  `startMeasuring`) act as the identity on the embedded state.
* `log.Fatalf` terminates the process; a callback that can reach it is embedded
  as returning `Option state`, with `none` standing for process termination.
* The CSV file written by the file-backed memory tracer is embedded as
  `Option String` (`none` = the file does not exist).
-/

/-- EVM opcodes appearing in the traced scenarios; `opName` mirrors
`vm.OpCode.String()` for these opcodes. -/
inductive OpCode where
  | ADD
  | MUL
  | SUB
  | STOP
  | PUSH1
deriving DecidableEq, BEq

/-- Symbolic name of an opcode, as produced by `vm.OpCode.String()`. -/
def OpCode.opName : OpCode → String
  | .ADD => "ADD"
  | .MUL => "MUL"
  | .SUB => "SUB"
  | .STOP => "STOP"
  | .PUSH1 => "PUSH1"

/-- One field of a CSV record, quoted per `encoding/csv` when it contains a
comma, a double quote, or a line break (the only quoting triggers reachable
from this repository's data: opcode names and decimal integers never quote). -/
def csvField (f : String) : String :=
  if f.toList.any (fun c => c == ',' || c == '\"' || c == '\n' || c == '\r') then
    "\"" ++ String.join (f.toList.map (fun c =>
      if c == '\"' then "\"\"" else String.singleton c)) ++ "\""
  else f

/-- One CSV record: fields joined by commas, terminated by a line feed, as
written by `csv.Writer.Write` followed by `Flush`. -/
def csvLine (fields : List String) : String :=
  String.intercalate "," (fields.map csvField) ++ "\n"

/-- Result value exposed through `GetResult`: Go's `json.Marshal` of a Go
`string` yields a JSON string, and of a `[][]int` yields a JSON array of
arrays. Marshalling of these two shapes never fails. -/
inductive JVal where
  | str (s : String)
  | arr (rows : List (List Int))
deriving DecidableEq, BEq

instance {α β : Type} [DecidableEq α] [DecidableEq β] : DecidableEq (Except α β)
  | .ok x, .ok y =>
      if h : x = y then .isTrue (h ▸ rfl)
      else .isFalse (fun hc => h (Except.ok.inj hc))
  | .error x, .error y =>
      if h : x = y then .isTrue (h ▸ rfl)
      else .isFalse (fun hc => h (Except.error.inj hc))
  | .ok _, .error _ => .isFalse (fun hc => Except.noConfusion hc)
  | .error _, .ok _ => .isFalse (fun hc => Except.noConfusion hc)

instance {α β : Type} [BEq α] [BEq β] : BEq (Except α β) where
  beq a b :=
    match a, b with
    | .ok x, .ok y => x == y
    | .error x, .error y => x == y
    | _, _ => false

/-- True when a `GetResult` payload is a JSON string (rather than an array). -/
def JVal.isStr : JVal → Bool
  | .str _ => true
  | .arr _ => false

/-- True when a `GetResult` outcome succeeded with a JSON string payload. -/
def resultIsStr : Except String JVal → Bool
  | .ok v => v.isStr
  | .error _ => false

/-! ### Cycles tracer (`cycles.go`) -/

/-- State of `cycleTracer`: the three aligned series and the stored remaining
gas of the cost window (`remainingGas`, initialised to the sentinel `0`). The
perf handles `cb`/`fd` and the `opcodeCosts` field (never read by this tracer)
are omitted. -/
structure CycleState where
  opcodes : List OpCode
  cycles : List Int
  cost : List Int
  remainingGas : Int
deriving DecidableEq, BEq

/-- `newCycleTracer`: empty series, `remainingGas = 0`. -/
def cycleInit : CycleState := ⟨[], [], [], 0⟩

/-- `cycleTracer.CaptureStart`: only calls `startMeasuring`, which touches the
perf handles; the embedded state (series and cost window) is unchanged and the
supplied gas argument is never read. -/
def cycleCaptureStart (_gas : Int) (t : CycleState) : CycleState := t

/-- `cycleTracer.CaptureState`. `sample` is the outcome of
`perf.StopCPUCycles`: `some v` on success; `none` when the read failed, in
which case the Go code prints the error and converts the zero-value
`pv.Value`, i.e. `0`, exactly as on a successful read of `0`. The cost window:
if the stored gas is the sentinel `0` the budget is stored without recording a
delta, otherwise the delta `remainingGas - gas` is appended to `cost`. The
`cycles` and `opcodes` rows are appended unconditionally. -/
def cycleCaptureState (t : CycleState) (op : OpCode) (gas : Int)
    (sample : Option Int) : CycleState :=
  let cycels : Int := sample.getD 0
  let t1 :=
    if t.remainingGas = 0 then
      { t with remainingGas := gas }
    else
      { t with cost := t.cost ++ [t.remainingGas - gas], remainingGas := gas }
  { t1 with cycles := t1.cycles ++ [cycels], opcodes := t1.opcodes ++ [op] }

/-- `cycleTracer.CaptureTxEnd`: unconditionally appends the final delta
`remainingGas - restGas` to the cost series (the perf stop call touches only
the external handles). -/
def cycleCaptureTxEnd (t : CycleState) (restGas : Int) : CycleState :=
  { t with cost := t.cost ++ [t.remainingGas - restGas] }

/-- `cycleTracer.Stop`: the body is empty; the state is unchanged and no flag
is recorded (the error argument is discarded). -/
def cycleStop (t : CycleState) : CycleState := t

/-- Data rows of `CyclesToCSV`: one CSV record per (opcode, cycles, cost)
triple, integers rendered by `strconv.Itoa`. -/
def cyclesRows : List (OpCode × Int × Int) → String
  | [] => ""
  | (op, cy, co) :: rest =>
      csvLine [op.opName, toString cy, toString co] ++ cyclesRows rest

/-- `CyclesToCSV`: errors when the three slices differ in length, otherwise
the header record `opcodes,cycles,cost` followed by one record per sample. -/
def CyclesToCSV (opcodes : List OpCode) (cycles cost : List Int) :
    Except String String :=
  if opcodes.length != cycles.length || cycles.length != cost.length then
    .error "all slices must have the same length"
  else
    .ok (csvLine ["opcodes", "cycles", "cost"] ++
      cyclesRows (opcodes.zip (cycles.zip cost)))

/-- `cycleTracer.GetResult`. The Go source computes
`csvData, err := CyclesToCSV(...)` and then immediately re-binds
`jsonBytes, err := json.Marshal(csvData)`, so the error from `CyclesToCSV` is
shadowed before the `if err != nil` check: on a length mismatch `csvData` is
the empty string and the function returns its JSON marshalling with a nil
error. Marshalling a Go string never fails, so the embedded result is always
`ok`. The state is returned unchanged (the function only reads it). -/
def cycleGetResult (t : CycleState) : Except String JVal × CycleState :=
  let csvData :=
    match CyclesToCSV t.opcodes t.cycles t.cost with
    | .ok s => s
    | .error _ => ""
  (.ok (.str csvData), t)

/-- Folds `cycleTracer.CaptureState` over a list of instruction-boundary
inputs `(opcode, remaining gas, perf sample)`. -/
def cycleRun (inputs : List (OpCode × Int × Option Int)) (s : CycleState) :
    CycleState :=
  inputs.foldl (fun t i => cycleCaptureState t i.1 i.2.1 i.2.2) s

/-! ### Timing tracer (`timing.go`) -/

/-- `OpcodeCosts` (`opcode_costs.go` helper compiled with `cycles.go`): a map
from opcode to the first cost ever supplied for it; embedded as an association
list (insertion refuses to overwrite, so keys are unique). -/
structure OpcodeCosts where
  costs : List (OpCode × Int)
deriving DecidableEq, BEq

/-- `OpcodeCosts.GetCost`: lookup, `none` when the opcode is absent (the Go
pair `(int, bool)` with `bool = false`). -/
def OpcodeCosts.getCost (oc : OpcodeCosts) (op : OpCode) : Option Int :=
  (oc.costs.find? (fun p => p.1 == op)).map (fun p => p.2)

/-- `OpcodeCosts.AddOpcode`: inserts the cost only when the opcode is new. -/
def OpcodeCosts.addOpcode (oc : OpcodeCosts) (op : OpCode) (cost : Int) :
    OpcodeCosts :=
  match oc.getCost op with
  | some _ => oc
  | none => ⟨oc.costs ++ [(op, cost)]⟩

/-- `OpcodeCosts.AddAndGetCost`: add (if new) then look up. -/
def OpcodeCosts.addAndGetCost (oc : OpcodeCosts) (op : OpCode) (cost : Int) :
    Option Int × OpcodeCosts :=
  let oc2 := oc.addOpcode op cost
  (oc2.getCost op, oc2)

/-- State of `timingTracer`: aligned series, the cost window's stored gas, and
the opcode-cost table. The `time.Time` of the wall clock is a handle of the
external sampler; the elapsed nanoseconds it produces are passed to the
embedded callback as an argument. -/
structure TimingState where
  opcodes : List OpCode
  timings : List Int
  cost : List Int
  remainingGas : Int
  opcodeCosts : OpcodeCosts
deriving DecidableEq, BEq

/-- `newTimingTracer`: empty series, `remainingGas = 0`, empty cost table. -/
def timingInit : TimingState := ⟨[], [], [], 0, ⟨[]⟩⟩

/-- `timingTracer.CaptureState`. On the sentinel branch (`remainingGas == 0`)
only the budget is stored. Otherwise the value appended to `cost` is NOT the
gas delta (that line is commented out in the source) but
`AddAndGetCost(op, cost)` — the first metered cost ever seen for this opcode —
with fallback `1` when the lookup reports absence. `timings` and `opcodes` are
appended unconditionally; `elapsed` is the externally sampled nanosecond
duration since the previous callback. -/
def timingCaptureState (t : TimingState) (op : OpCode)
    (gas opCost elapsed : Int) : TimingState :=
  let t1 :=
    if t.remainingGas = 0 then
      { t with remainingGas := gas }
    else
      let r := t.opcodeCosts.addAndGetCost op opCost
      let adaptedCost := match r.1 with | some c => c | none => 1
      { t with cost := t.cost ++ [adaptedCost], remainingGas := gas,
               opcodeCosts := r.2 }
  { t1 with timings := t1.timings ++ [elapsed], opcodes := t1.opcodes ++ [op] }

/-- `timingTracer.CaptureTxEnd`: unconditionally appends
`remainingGas - restGas` to the cost series. -/
def timingCaptureTxEnd (t : TimingState) (restGas : Int) : TimingState :=
  { t with cost := t.cost ++ [t.remainingGas - restGas] }

/-- Folds `timingTracer.CaptureState` over inputs
`(opcode, remaining gas, metered cost, elapsed nanoseconds)`. -/
def timingRun (inputs : List (OpCode × Int × Int × Int)) (s : TimingState) :
    TimingState :=
  inputs.foldl (fun t i => timingCaptureState t i.1 i.2.1 i.2.2.1 i.2.2.2) s

/-! ### File-backed memory tracer (`memory.go`) -/

/-- State of the file-backed `memoryTracer`: resolution-gate counter, the
fixed resolution (hard-coded to `100` at construction), and the backing CSV
file's contents (`none` = absent). -/
structure MemFileState where
  opCounter : Nat
  resolution : Nat
  file : Option String
deriving DecidableEq, BEq

/-- Resolution gate of `memoryTracer.CaptureState`:
`0 == t.opCounter % t.resolution`. -/
def shouldSample (counter resolution : Nat) : Bool := counter % resolution == 0

/-- Counter advance performed after the gate check:
`t.opCounter = t.opCounter + 1`. -/
def advance (counter : Nat) : Nat := counter + 1

/-- Header written by `createCSV`. -/
def memHeader : String :=
  csvLine ["heapAlloc", "heapSys", "heapIdle", "heapInuse", "stackInUse",
           "stackSys"]

/-- `newMemoryTracer`: counter `0`, resolution `100`, no file yet. -/
def memFileNew : MemFileState := ⟨0, 100, none⟩

/-- `memoryTracer.CaptureStart`: creates the CSV file with the header row;
on a filesystem error `log.Fatalf` terminates the process (`none`). -/
def memoryFileCaptureStart (s : MemFileState) (createOk : Bool) :
    Option MemFileState :=
  if createOk then some { s with file := some memHeader } else none

/-- `memoryTracer.CaptureState`. When the resolution gate passes,
`addMemStatsToCSV` appends one record of the six sampled statistics; if the
file is missing or the write fails (`writeOk = false`), `log.Fatalf`
terminates the process (`none`). When the gate does not pass no row is
appended. In both surviving cases the counter advances by one. -/
def memoryFileCaptureState (s : MemFileState) (stats : List Int)
    (writeOk : Bool) : Option MemFileState :=
  if shouldSample s.opCounter s.resolution then
    match s.file, writeOk with
    | some contents, true =>
        some { s with file := some (contents ++ csvLine (stats.map toString)),
                      opCounter := advance s.opCounter }
    | _, _ => none
  else
    some { s with opCounter := advance s.opCounter }

/-- `getCSVAsStringAndDelete`: reads the whole file then removes it; a missing
file makes the read fail (and the state of the filesystem stays without the
file). -/
def getCSVAsStringAndDelete (file : Option String) :
    Except String String × Option String :=
  match file with
  | some contents => (.ok contents, none)
  | none => (.error "read failed", none)

/-- `memoryTracer.GetResult`. As in the cycles tracer, the source re-binds
`err` with `json.Marshal` immediately after
`csvString, err := getCSVAsStringAndDelete(...)`, so a read failure is
silently dropped and the empty string is marshalled instead; the result is
always `ok`, and the backing file is deleted as a side effect. -/
def memoryFileGetResult (s : MemFileState) :
    Except String JVal × MemFileState :=
  let r := getCSVAsStringAndDelete s.file
  let csvString := match r.1 with | .ok c => c | .error _ => ""
  (.ok (.str csvString), { s with file := r.2 })

/-- `memoryTracer.Stop`: empty body, state unchanged. -/
def memoryFileStop (s : MemFileState) : MemFileState := s

/-! ### In-memory transaction memory tracer (`memoryTransactionTracer`) -/

/-- One `runtime.ReadMemStats` snapshot after `bToMb` conversion. -/
structure MemSample where
  heapAlloc : Int
  heapSys : Int
  heapIdle : Int
  heapInuse : Int
  stackInUse : Int
  stackSys : Int
deriving DecidableEq, BEq

/-- State of `memoryTransactionTracer`: the six aligned series. -/
structure MemTxState where
  heapAllocList : List Int
  heapSysList : List Int
  heapIdleList : List Int
  heapInuseList : List Int
  stackInUseList : List Int
  stackSysList : List Int
deriving DecidableEq, BEq

/-- `newMemoryTransactionTracer`: six empty lists. -/
def memTxInit : MemTxState := ⟨[], [], [], [], [], []⟩

/-- `memoryTransactionTracer.addHeapProfile`: appends the six sampled values,
one to each series. -/
def memTxAddHeapProfile (t : MemTxState) (m : MemSample) : MemTxState :=
  ⟨t.heapAllocList ++ [m.heapAlloc],
   t.heapSysList ++ [m.heapSys],
   t.heapIdleList ++ [m.heapIdle],
   t.heapInuseList ++ [m.heapInuse],
   t.stackInUseList ++ [m.stackInUse],
   t.stackSysList ++ [m.stackSys]⟩

/-- Folds `addHeapProfile` over a list of snapshots (each of `CaptureStart`,
`CaptureEnd` takes one; `CaptureState` is a no-op for this tracer). -/
def memTxRun (samples : List MemSample) (s : MemTxState) : MemTxState :=
  samples.foldl memTxAddHeapProfile s

/-- Cross-series length consistency checked by
`memoryTransactionTracer.GetResult` (the negation of its guard). -/
def memTxAligned (t : MemTxState) : Bool :=
  t.heapAllocList.length == t.stackInUseList.length
  && t.heapAllocList.length == t.heapSysList.length
  && t.heapAllocList.length == t.heapIdleList.length
  && t.heapAllocList.length == t.heapInuseList.length
  && t.heapAllocList.length == t.stackSysList.length

/-- Row construction of `memoryTransactionTracer.GetResult`: the Go loop
ranges over the first list and indexes the other five at the same position;
under the guard all six lists have equal length, where this zip agrees with
the indexing loop. -/
def zip6 : List Int → List Int → List Int → List Int → List Int → List Int →
    List (List Int)
  | a :: as, b :: bs, c :: cs, d :: ds, e :: es, f :: fs =>
      [a, b, c, d, e, f] :: zip6 as bs cs ds es fs
  | _, _, _, _, _, _ => []

/-- Sample rows of a `memoryTransactionTracer` state. -/
def memTxPairs (t : MemTxState) : List (List Int) :=
  zip6 t.heapAllocList t.heapSysList t.heapIdleList t.heapInuseList
    t.stackInUseList t.stackSysList

/-- `memoryTransactionTracer.GetResult`: errors when the six lists differ in
length; otherwise marshals the rows as a JSON array of integer arrays (not a
JSON string). -/
def memTxGetResult (t : MemTxState) : Except String JVal :=
  if !memTxAligned t then
    .error "all lists must have the same length"
  else
    .ok (.arr (memTxPairs t))

/-! ### Helper lemmas about single callbacks and runs -/

theorem cycleCaptureState_opcodes (t : CycleState) (op : OpCode) (gas : Int)
    (smp : Option Int) :
    (cycleCaptureState t op gas smp).opcodes = t.opcodes ++ [op] := by
  simp only [cycleCaptureState]
  split <;> rfl

theorem cycleCaptureState_cycles (t : CycleState) (op : OpCode) (gas : Int)
    (smp : Option Int) :
    (cycleCaptureState t op gas smp).cycles = t.cycles ++ [smp.getD 0] := by
  simp only [cycleCaptureState]
  split <;> rfl

theorem cycleCaptureState_remainingGas (t : CycleState) (op : OpCode)
    (gas : Int) (smp : Option Int) :
    (cycleCaptureState t op gas smp).remainingGas = gas := by
  simp only [cycleCaptureState]
  split <;> rfl

theorem cycleCaptureState_cost_sentinel (t : CycleState) (op : OpCode)
    (gas : Int) (smp : Option Int) (h : t.remainingGas = 0) :
    (cycleCaptureState t op gas smp).cost = t.cost := by
  simp only [cycleCaptureState]
  rw [if_pos h]

theorem cycleCaptureState_cost_live (t : CycleState) (op : OpCode) (gas : Int)
    (smp : Option Int) (h : t.remainingGas ≠ 0) :
    (cycleCaptureState t op gas smp).cost = t.cost ++ [t.remainingGas - gas] := by
  simp only [cycleCaptureState]
  rw [if_neg h]

theorem cycleRun_cons (i : OpCode × Int × Option Int)
    (is : List (OpCode × Int × Option Int)) (s : CycleState) :
    cycleRun (i :: is) s = cycleRun is (cycleCaptureState s i.1 i.2.1 i.2.2) := rfl

theorem cycleRun_opcodes_cycles (inputs : List (OpCode × Int × Option Int)) :
    ∀ s : CycleState,
      (cycleRun inputs s).opcodes.length = s.opcodes.length + inputs.length ∧
      (cycleRun inputs s).cycles.length = s.cycles.length + inputs.length := by
  induction inputs with
  | nil => intro s; simp [cycleRun]
  | cons i is ih =>
      intro s
      rw [cycleRun_cons]
      obtain ⟨h1, h2⟩ := ih (cycleCaptureState s i.1 i.2.1 i.2.2)
      rw [h1, h2, cycleCaptureState_opcodes, cycleCaptureState_cycles]
      constructor <;> (simp; omega)

theorem cycleRun_cost_live (inputs : List (OpCode × Int × Option Int))
    (h : ∀ i ∈ inputs, i.2.1 ≠ 0) :
    ∀ s : CycleState, s.remainingGas ≠ 0 →
      (cycleRun inputs s).cost.length = s.cost.length + inputs.length ∧
      (cycleRun inputs s).remainingGas ≠ 0 := by
  induction inputs with
  | nil => intro s hs; exact ⟨by simp [cycleRun], hs⟩
  | cons i is ih =>
      intro s hs
      rw [cycleRun_cons]
      have hgas : i.2.1 ≠ 0 := h i (List.mem_cons_self i is)
      have hrest : ∀ j ∈ is, j.2.1 ≠ 0 := fun j hj => h j (List.mem_cons_of_mem i hj)
      have hrg : (cycleCaptureState s i.1 i.2.1 i.2.2).remainingGas ≠ 0 := by
        rw [cycleCaptureState_remainingGas]; exact hgas
      obtain ⟨h1, h2⟩ := ih hrest (cycleCaptureState s i.1 i.2.1 i.2.2) hrg
      refine ⟨?_, h2⟩
      rw [h1, cycleCaptureState_cost_live s i.1 i.2.1 i.2.2 hs]
      simp
      omega

theorem cycleRun_from_init (inputs : List (OpCode × Int × Option Int))
    (hne : inputs ≠ []) (h : ∀ i ∈ inputs, i.2.1 ≠ 0) (rest : Int) :
    (cycleRun inputs cycleInit).opcodes.length = inputs.length ∧
    (cycleRun inputs cycleInit).cycles.length = inputs.length ∧
    (cycleRun inputs cycleInit).cost.length = inputs.length - 1 ∧
    (cycleCaptureTxEnd (cycleRun inputs cycleInit) rest).cost.length
      = inputs.length := by
  match inputs, hne with
  | i :: is, _ =>
    have hgas : i.2.1 ≠ 0 := h i (List.mem_cons_self i is)
    have hrest : ∀ j ∈ is, j.2.1 ≠ 0 := fun j hj => h j (List.mem_cons_of_mem i hj)
    have hs1rg : (cycleCaptureState cycleInit i.1 i.2.1 i.2.2).remainingGas ≠ 0 := by
      rw [cycleCaptureState_remainingGas]; exact hgas
    have hs1cost : (cycleCaptureState cycleInit i.1 i.2.1 i.2.2).cost = [] :=
      cycleCaptureState_cost_sentinel cycleInit i.1 i.2.1 i.2.2 rfl
    rw [cycleRun_cons]
    obtain ⟨hoc, hcy⟩ := cycleRun_opcodes_cycles is
      (cycleCaptureState cycleInit i.1 i.2.1 i.2.2)
    obtain ⟨hco, _⟩ := cycleRun_cost_live is hrest
      (cycleCaptureState cycleInit i.1 i.2.1 i.2.2) hs1rg
    rw [cycleCaptureState_opcodes] at hoc
    rw [cycleCaptureState_cycles] at hcy
    rw [hs1cost] at hco
    refine ⟨?_, ?_, ?_, ?_⟩
    · rw [hoc]; simp [cycleInit]; omega
    · rw [hcy]; simp [cycleInit]; omega
    · rw [hco]; simp
    · show ((cycleRun is _).cost ++ [_]).length = _
      rw [List.length_append, hco]; simp

theorem timingCaptureState_opcodes (t : TimingState) (op : OpCode)
    (gas opCost elapsed : Int) :
    (timingCaptureState t op gas opCost elapsed).opcodes = t.opcodes ++ [op] := by
  simp only [timingCaptureState]
  split <;> rfl

theorem timingCaptureState_timings (t : TimingState) (op : OpCode)
    (gas opCost elapsed : Int) :
    (timingCaptureState t op gas opCost elapsed).timings
      = t.timings ++ [elapsed] := by
  simp only [timingCaptureState]
  split <;> rfl

theorem timingCaptureState_remainingGas (t : TimingState) (op : OpCode)
    (gas opCost elapsed : Int) :
    (timingCaptureState t op gas opCost elapsed).remainingGas = gas := by
  simp only [timingCaptureState]
  split <;> rfl

theorem timingCaptureState_cost_sentinel (t : TimingState) (op : OpCode)
    (gas opCost elapsed : Int) (h : t.remainingGas = 0) :
    (timingCaptureState t op gas opCost elapsed).cost = t.cost := by
  simp only [timingCaptureState]
  rw [if_pos h]

theorem timingCaptureState_cost_live (t : TimingState) (op : OpCode)
    (gas opCost elapsed : Int) (h : t.remainingGas ≠ 0) :
    (timingCaptureState t op gas opCost elapsed).cost
      = t.cost ++ [match (t.opcodeCosts.addAndGetCost op opCost).1 with
                   | some c => c | none => 1] := by
  simp only [timingCaptureState]
  rw [if_neg h]

theorem timingRun_cons (i : OpCode × Int × Int × Int)
    (is : List (OpCode × Int × Int × Int)) (s : TimingState) :
    timingRun (i :: is) s
      = timingRun is (timingCaptureState s i.1 i.2.1 i.2.2.1 i.2.2.2) := rfl

theorem timingRun_opcodes_timings (inputs : List (OpCode × Int × Int × Int)) :
    ∀ s : TimingState,
      (timingRun inputs s).opcodes.length = s.opcodes.length + inputs.length ∧
      (timingRun inputs s).timings.length = s.timings.length + inputs.length := by
  induction inputs with
  | nil => intro s; simp [timingRun]
  | cons i is ih =>
      intro s
      rw [timingRun_cons]
      obtain ⟨h1, h2⟩ := ih (timingCaptureState s i.1 i.2.1 i.2.2.1 i.2.2.2)
      rw [h1, h2, timingCaptureState_opcodes, timingCaptureState_timings]
      constructor <;> (simp; omega)

theorem timingRun_cost_live (inputs : List (OpCode × Int × Int × Int))
    (h : ∀ i ∈ inputs, i.2.1 ≠ 0) :
    ∀ s : TimingState, s.remainingGas ≠ 0 →
      (timingRun inputs s).cost.length = s.cost.length + inputs.length ∧
      (timingRun inputs s).remainingGas ≠ 0 := by
  induction inputs with
  | nil => intro s hs; exact ⟨by simp [timingRun], hs⟩
  | cons i is ih =>
      intro s hs
      rw [timingRun_cons]
      have hgas : i.2.1 ≠ 0 := h i (List.mem_cons_self i is)
      have hrest : ∀ j ∈ is, j.2.1 ≠ 0 := fun j hj => h j (List.mem_cons_of_mem i hj)
      have hrg : (timingCaptureState s i.1 i.2.1 i.2.2.1 i.2.2.2).remainingGas ≠ 0 := by
        rw [timingCaptureState_remainingGas]; exact hgas
      obtain ⟨h1, h2⟩ := ih hrest (timingCaptureState s i.1 i.2.1 i.2.2.1 i.2.2.2) hrg
      refine ⟨?_, h2⟩
      rw [h1, timingCaptureState_cost_live s i.1 i.2.1 i.2.2.1 i.2.2.2 hs]
      simp
      omega

theorem timingRun_from_init (inputs : List (OpCode × Int × Int × Int))
    (hne : inputs ≠ []) (h : ∀ i ∈ inputs, i.2.1 ≠ 0) (rest : Int) :
    (timingRun inputs timingInit).opcodes.length = inputs.length ∧
    (timingRun inputs timingInit).timings.length = inputs.length ∧
    (timingCaptureTxEnd (timingRun inputs timingInit) rest).cost.length
      = inputs.length := by
  match inputs, hne with
  | i :: is, _ =>
    have hgas : i.2.1 ≠ 0 := h i (List.mem_cons_self i is)
    have hrest : ∀ j ∈ is, j.2.1 ≠ 0 := fun j hj => h j (List.mem_cons_of_mem i hj)
    have hrg : (timingCaptureState timingInit i.1 i.2.1 i.2.2.1 i.2.2.2).remainingGas ≠ 0 := by
      rw [timingCaptureState_remainingGas]; exact hgas
    have hs1cost : (timingCaptureState timingInit i.1 i.2.1 i.2.2.1 i.2.2.2).cost = [] :=
      timingCaptureState_cost_sentinel timingInit i.1 i.2.1 i.2.2.1 i.2.2.2 rfl
    rw [timingRun_cons]
    obtain ⟨hoc, hti⟩ := timingRun_opcodes_timings is
      (timingCaptureState timingInit i.1 i.2.1 i.2.2.1 i.2.2.2)
    obtain ⟨hco, _⟩ := timingRun_cost_live is hrest
      (timingCaptureState timingInit i.1 i.2.1 i.2.2.1 i.2.2.2) hrg
    rw [timingCaptureState_opcodes] at hoc
    rw [timingCaptureState_timings] at hti
    rw [hs1cost] at hco
    refine ⟨?_, ?_, ?_⟩
    · rw [hoc]; simp [timingInit]; omega
    · rw [hti]; simp [timingInit]; omega
    · show ((timingRun is _).cost ++ [_]).length = _
      rw [List.length_append, hco]; simp

theorem memTxAddHeapProfile_lengths (t : MemTxState) (m : MemSample) :
    (memTxAddHeapProfile t m).heapAllocList.length = t.heapAllocList.length + 1 ∧
    (memTxAddHeapProfile t m).heapSysList.length = t.heapSysList.length + 1 ∧
    (memTxAddHeapProfile t m).heapIdleList.length = t.heapIdleList.length + 1 ∧
    (memTxAddHeapProfile t m).heapInuseList.length = t.heapInuseList.length + 1 ∧
    (memTxAddHeapProfile t m).stackInUseList.length = t.stackInUseList.length + 1 ∧
    (memTxAddHeapProfile t m).stackSysList.length = t.stackSysList.length + 1 := by
  simp [memTxAddHeapProfile]

theorem memTxRun_aligned (samples : List MemSample) :
    ∀ t : MemTxState, memTxAligned t = true →
      memTxAligned (memTxRun samples t) = true := by
  induction samples with
  | nil => intro t ht; exact ht
  | cons m ms ih =>
      intro t ht
      show memTxAligned (memTxRun ms (memTxAddHeapProfile t m)) = true
      apply ih
      obtain ⟨l1, l2, l3, l4, l5, l6⟩ := memTxAddHeapProfile_lengths t m
      simp only [memTxAligned, Bool.and_eq_true, beq_iff_eq] at ht ⊢
      omega

/-! ### Claim C1 -/

/-- The end-to-end cycles scenario of the spec: `CaptureStart(1000)`, three
instruction boundaries with remaining budgets 900, 850, 850 and opcodes ADD,
MUL, SUB (perf samples 1, 2, 3), then `CaptureTxEnd(800)`. -/
def c1Run : CycleState :=
  cycleCaptureTxEnd
    (cycleCaptureState
      (cycleCaptureState
        (cycleCaptureState (cycleCaptureStart 1000 cycleInit) .ADD 900 (some 1))
        .MUL 850 (some 2))
      .SUB 850 (some 3))
    800

/-- C1 counterexample: in the scenario of the claim the cost column sums to
100, not 200 — the code never records the 100 units consumed between
transaction start (budget 1000) and the first instruction boundary (budget
900), because `CaptureStart` does not feed the budget into the cost window. -/
theorem c1_counterexample : (c1Run.cost.sum == (200 : Int)) = false := by decide

/-- C1 (amended): the scenario produces opcode column `[ADD, MUL, SUB]` and
cost column `[50, 0, 50]`, which sums to 100 = 900 − 800, the budget consumed
from the first instruction boundary on; the serialized result is the CSV
table with exactly those rows. -/
theorem c1_amended :
    c1Run.opcodes = [OpCode.ADD, OpCode.MUL, OpCode.SUB]
    ∧ c1Run.cost = [50, 0, 50]
    ∧ c1Run.cost.sum = 100
    ∧ (cycleGetResult c1Run).1
        = .ok (.str "opcodes,cycles,cost\nADD,1,50\nMUL,2,0\nSUB,3,50\n") := by
  decide

/-! ### Claim C2 -/

/-- Cycles tracer after two instruction-boundary callbacks with budgets
100 and 80. -/
def c2Ex : CycleState :=
  cycleCaptureState (cycleCaptureState cycleInit .ADD 100 (some 1)) .MUL 80 (some 1)

/-- C2 counterexample: after the second callback the opcode series has length
2 while the cost series has length 1 — both non-empty yet of different
lengths, because the first callback stores the budget without recording a
cost delta. -/
theorem c2_counterexample :
    (c2Ex.opcodes.length == 0 || c2Ex.cost.length == 0
      || c2Ex.cost.length == c2Ex.opcodes.length) = false := by decide

/-- C2 (amended): after any sequence of callbacks the opcode series and the
measurement series (cycles resp. timings) have equal length; while running the
cost series lags behind, but after `CaptureTxEnd` of a run whose reported
budgets are all nonzero (with at least one boundary) the cost series has
exactly the common length of the other series; the six series of the
in-memory memory tracer are always mutually aligned. -/
theorem c2_amended
    (pre inputs : List (OpCode × Int × Option Int))
    (tinputs : List (OpCode × Int × Int × Int))
    (samples : List MemSample)
    (rest trest : Int)
    (hne : inputs ≠ []) (hgas : ∀ i ∈ inputs, i.2.1 ≠ 0)
    (htne : tinputs ≠ []) (htgas : ∀ i ∈ tinputs, i.2.1 ≠ 0) :
    (cycleRun pre cycleInit).opcodes.length = (cycleRun pre cycleInit).cycles.length
    ∧ (cycleCaptureTxEnd (cycleRun inputs cycleInit) rest).cost.length
        = (cycleRun inputs cycleInit).opcodes.length
    ∧ (timingCaptureTxEnd (timingRun tinputs timingInit) trest).cost.length
        = (timingRun tinputs timingInit).opcodes.length
    ∧ memTxAligned (memTxRun samples memTxInit) = true := by
  obtain ⟨ho, hc⟩ := cycleRun_opcodes_cycles pre cycleInit
  obtain ⟨h1, _, _, h4⟩ := cycleRun_from_init inputs hne hgas rest
  obtain ⟨t1, _, t3⟩ := timingRun_from_init tinputs htne htgas trest
  refine ⟨?_, ?_, ?_, ?_⟩
  · rw [ho, hc]; rfl
  · rw [h4, h1]
  · rw [t3, t1]
  · exact memTxRun_aligned samples memTxInit rfl

/-- C2 witness: the amended alignment at a concrete two-boundary cycles run
and a one-boundary timing run. -/
theorem c2_amended_witness :
    (cycleCaptureTxEnd
        (cycleRun [(OpCode.ADD, 100, some 1), (OpCode.MUL, 80, some 2)] cycleInit)
        50).cost.length
      = (cycleRun [(OpCode.ADD, 100, some 1), (OpCode.MUL, 80, some 2)] cycleInit).opcodes.length
    ∧ (timingCaptureTxEnd (timingRun [(OpCode.ADD, 100, 3, 1)] timingInit) 50).cost.length
      = (timingRun [(OpCode.ADD, 100, 3, 1)] timingInit).opcodes.length :=
  have h := c2_amended [] [(OpCode.ADD, 100, some 1), (OpCode.MUL, 80, some 2)]
    [(OpCode.ADD, 100, 3, 1)] [⟨1, 2, 3, 4, 5, 6⟩] 50 50
    (by decide) (by intro i hi; fin_cases hi <;> decide)
    (by decide) (by intro i hi; fin_cases hi; decide)
  ⟨h.2.1, h.2.2.1⟩

/-! ### Claim C3 -/

/-- Cycles tracer after a single instruction boundary: the opcode and cycles
series have length 1 while the cost series is empty, so the length invariant
is violated when a result is requested from the running state. -/
def c3BadState : CycleState := cycleCaptureState cycleInit .ADD 900 (some 7)

/-- C3: the length-check inside `CyclesToCSV` does fire on the mismatched
state, but `cycleTracer.GetResult` shadows that error with the
`json.Marshal` error and returns the marshalled empty string with a nil
error — contradicting the claimed `DataIntegrityFault` propagation. The
in-memory transaction memory tracer, by contrast, does surface the fault. -/
theorem c3_code_evaluation :
    CyclesToCSV c3BadState.opcodes c3BadState.cycles c3BadState.cost
      = .error "all slices must have the same length"
    ∧ cycleGetResult c3BadState = (.ok (.str ""), c3BadState)
    ∧ memTxGetResult ⟨[1], [], [], [], [], []⟩
        = .error "all lists must have the same length" := by decide

/-! ### Claim C4 -/

/-- File-backed memory tracer whose CSV file holds the header row (the state
right after `CaptureStart`). -/
def c4FileState : MemFileState := ⟨0, 100, some memHeader⟩

/-- C4 counterexample: the file-backed memory tracer's `GetResult` deletes the
backing file, so a second call returns a different snapshot (the dropped read
error turns into the empty string) and the external state it read from is
mutated. -/
theorem c4_counterexample :
    ((memoryFileGetResult c4FileState).1
       == (memoryFileGetResult (memoryFileGetResult c4FileState).2).1) = false
    ∧ ((memoryFileGetResult c4FileState).2.file == c4FileState.file) = false := by
  decide

/-- C4 (amended): the in-memory cycles tracer's `GetResult` never mutates the
tracer state and calling it twice returns the same snapshot; the file-backed
memory tracer's `GetResult` deletes its backing CSV file, so it is one-shot:
the first call returns the file contents, every later call returns the empty
string. -/
theorem c4_amended (t : CycleState) (s : MemFileState) :
    (cycleGetResult t).2 = t
    ∧ (cycleGetResult ((cycleGetResult t).2)).1 = (cycleGetResult t).1
    ∧ (memoryFileGetResult s).1 = .ok (.str (s.file.getD ""))
    ∧ (memoryFileGetResult s).2.file = none
    ∧ (memoryFileGetResult ((memoryFileGetResult s).2)).1 = .ok (.str "") := by
  refine ⟨rfl, rfl, ?_, ?_, ?_⟩
  · cases hf : s.file <;> simp [memoryFileGetResult, getCSVAsStringAndDelete, hf]
  · cases hf : s.file <;> simp [memoryFileGetResult, getCSVAsStringAndDelete, hf]
  · cases hf : s.file <;> simp [memoryFileGetResult, getCSVAsStringAndDelete, hf]

/-! ### Claim C5 -/

/-- Timing tracer fed two boundaries: budgets 100 then 80, metered costs 3
then 7. -/
def c5TimingEx : TimingState :=
  timingCaptureState (timingCaptureState timingInit .ADD 100 3 1) .MUL 80 7 1

/-- C5 counterexample: on the second observation the timing tracer appends 7
(the opcode-cost-table value for MUL) to its cost series, not the budget delta
100 − 80 = 20 required by the claim. -/
theorem c5_counterexample : (c5TimingEx.cost == [(20 : Int)]) = false := by decide

/-- Cycles tracer fed the spec's cost-window budgets `[100, 80, 80, 50]`. -/
def c5Run : CycleState :=
  cycleCaptureState
    (cycleCaptureState
      (cycleCaptureState (cycleCaptureState cycleInit .ADD 100 (some 1))
        .MUL 80 (some 1))
      .SUB 80 (some 1))
    .STOP 50 (some 1)

/-- C5 (amended): the cycles tracer's cost window satisfies the claimed
contract — the first observation records no delta and stores the budget, each
later observation appends `previous − current` and updates the store, the
final flush appends `stored − rest` unconditionally, and budgets
`[100, 80, 80, 50]` yield cost series `[20, 0, 30]` with `flush(30)` then
appending 20. The timing tracer flushes identically but its per-boundary cost
entries come from the opcode-cost table instead of the budget delta. -/
theorem c5_amended (t u : CycleState) (op op2 : OpCode) (gas gas2 rest : Int)
    (smp smp2 : Option Int) (tt : TimingState) (trest : Int)
    (h0 : t.remainingGas = 0) (hne : u.remainingGas ≠ 0) :
    ((cycleCaptureState t op gas smp).cost = t.cost
      ∧ (cycleCaptureState t op gas smp).remainingGas = gas)
    ∧ ((cycleCaptureState u op2 gas2 smp2).cost = u.cost ++ [u.remainingGas - gas2]
      ∧ (cycleCaptureState u op2 gas2 smp2).remainingGas = gas2)
    ∧ (cycleCaptureTxEnd u rest).cost = u.cost ++ [u.remainingGas - rest]
    ∧ (timingCaptureTxEnd tt trest).cost = tt.cost ++ [tt.remainingGas - trest]
    ∧ c5Run.cost = [20, 0, 30]
    ∧ c5Run.remainingGas = 50
    ∧ (cycleCaptureTxEnd c5Run 30).cost = [20, 0, 30, 20] :=
  ⟨⟨cycleCaptureState_cost_sentinel t op gas smp h0,
    cycleCaptureState_remainingGas t op gas smp⟩,
   ⟨cycleCaptureState_cost_live u op2 gas2 smp2 hne,
    cycleCaptureState_remainingGas u op2 gas2 smp2⟩,
   rfl, rfl, by decide, by decide, by decide⟩

/-- C5 witness: the amended cost-window contract at concrete states. -/
theorem c5_amended_witness :
    (cycleCaptureState cycleInit OpCode.ADD 100 (some 1)).cost = cycleInit.cost
    ∧ (cycleCaptureState (CycleState.mk [] [] [] 100) OpCode.MUL 80 (some 1)).cost
        = (CycleState.mk [] [] [] 100).cost ++ [(100 : Int) - 80] :=
  have h := c5_amended cycleInit ⟨[], [], [], 100⟩ .ADD .MUL 100 80 50 (some 1)
    (some 1) timingInit 30 rfl (by decide)
  ⟨h.1.1, h.2.1.1⟩

/-! ### Claim C6 -/

/-- File-backed memory tracer at a sampled boundary (counter 0, so the
resolution gate passes) with an existing CSV file. -/
def c6HaltState : MemFileState := ⟨0, 100, some memHeader⟩

/-- C6 counterexample: when appending the memory statistics fails on a sampled
callback, the file-backed memory tracer does not continue — `log.Fatalf`
terminates the traced execution (no surviving state exists). -/
theorem c6_counterexample :
    (memoryFileCaptureState c6HaltState [0, 0, 0, 0, 0, 0] false).isSome = false := by
  decide

/-- C6 (amended): in the cycles tracer a failed perf read never halts or
aborts the callback and no error propagates — but the row is not skipped: the
opcode is still appended and the cycles series receives the zero value the
failed read leaves behind, exactly as if 0 had been read. In the file-backed
memory tracer a failed append on a sampled callback terminates the process. -/
theorem c6_amended (t : CycleState) (op : OpCode) (gas : Int)
    (s : MemFileState) (stats : List Int)
    (hss : shouldSample s.opCounter s.resolution = true) :
    cycleCaptureState t op gas none = cycleCaptureState t op gas (some 0)
    ∧ (cycleCaptureState t op gas none).opcodes = t.opcodes ++ [op]
    ∧ (cycleCaptureState t op gas none).cycles = t.cycles ++ [0]
    ∧ memoryFileCaptureState s stats false = none := by
  refine ⟨rfl, cycleCaptureState_opcodes t op gas none, ?_, ?_⟩
  · simpa using cycleCaptureState_cycles t op gas none
  · cases hf : s.file <;> simp [memoryFileCaptureState, hss, hf]

/-- C6 witness: the amended behaviour at a concrete tracer state and a
concrete sampled boundary. -/
theorem c6_witness :
    (cycleCaptureState cycleInit OpCode.ADD 100 none).opcodes = [OpCode.ADD]
    ∧ memoryFileCaptureState ⟨0, 100, some memHeader⟩ [1, 2, 3, 4, 5, 6] false = none :=
  have h := c6_amended cycleInit .ADD 100 ⟨0, 100, some memHeader⟩ [1, 2, 3, 4, 5, 6]
    (by decide)
  ⟨h.2.1, h.2.2.2⟩

/-! ### Claim C7 -/

/-- Cycles tracer with one recorded sample, about to receive `Stop`. -/
def c7After : CycleState := cycleCaptureState cycleInit .ADD 100 (some 1)

/-- C7 counterexample: an instruction-boundary callback arriving after `Stop`
is not ignored — it appends a row, so the opcode series differs from the one
recorded at the stop request. -/
theorem c7_counterexample :
    ((cycleCaptureState (cycleStop c7After) .MUL 80 (some 1)).opcodes
       == c7After.opcodes) = false := by decide

/-- C7 (amended): `Stop` preserves all recorded samples because it is a
no-op on the tracer state, but subsequent instruction-boundary callbacks are
processed exactly as if `Stop` had never been called — in particular they
still append rows. -/
theorem c7_amended (t : CycleState) (s : MemFileState)
    (op : OpCode) (gas : Int) (smp : Option Int) :
    cycleStop t = t
    ∧ memoryFileStop s = s
    ∧ cycleCaptureState (cycleStop t) op gas smp = cycleCaptureState t op gas smp
    ∧ (cycleCaptureState (cycleStop t) op gas smp).opcodes = t.opcodes ++ [op] :=
  ⟨rfl, rfl, rfl, cycleCaptureState_opcodes t op gas smp⟩

/-! ### Claim C8 -/

/-- C8 counterexample: the in-memory transaction memory tracer's result is a
JSON array of per-sample arrays, not a JSON string; and the cycles variant's
header names its first column `opcodes`, not `opcode`. -/
theorem c8_counterexample :
    (resultIsStr (memTxGetResult memTxInit)) = false
    ∧ (CyclesToCSV [] [] []
        == (Except.ok "opcode,cycles,cost\n" : Except String String)) = false := by
  decide

/-- C8 (amended): the cycles tracer's exposed result is always a JSON string;
on aligned series it wraps the tabular encoding — header `opcodes,cycles,cost`
followed by one CSV record per sample. The in-memory transaction memory
tracer instead exposes a JSON array of per-sample integer arrays, never a
string. -/
theorem c8_amended (t : CycleState) (m : MemTxState)
    (h1 : t.opcodes.length = t.cycles.length)
    (h2 : t.cycles.length = t.cost.length)
    (hm : memTxAligned m = true) :
    resultIsStr (cycleGetResult t).1 = true
    ∧ CyclesToCSV t.opcodes t.cycles t.cost
        = .ok (csvLine ["opcodes", "cycles", "cost"]
            ++ cyclesRows (t.opcodes.zip (t.cycles.zip t.cost)))
    ∧ (t.opcodes.zip (t.cycles.zip t.cost)).length = t.opcodes.length
    ∧ memTxGetResult m = .ok (.arr (memTxPairs m))
    ∧ resultIsStr (memTxGetResult m) = false := by
  have h4 : memTxGetResult m = .ok (.arr (memTxPairs m)) := by
    simp [memTxGetResult, hm]
  refine ⟨rfl, ?_, ?_, h4, ?_⟩
  · simp [CyclesToCSV, h1, h2]
  · simp [List.length_zip, h1, h2]
  · rw [h4]; rfl

/-- C8 witness: the amended result shapes at a one-sample cycles state and a
one-sample transaction-memory state. -/
theorem c8_witness :
    resultIsStr (cycleGetResult ⟨[OpCode.ADD], [5], [9], 850⟩).1 = true
    ∧ resultIsStr (memTxGetResult ⟨[1], [2], [3], [4], [5], [6]⟩) = false :=
  have h := c8_amended ⟨[OpCode.ADD], [5], [9], 850⟩ ⟨[1], [2], [3], [4], [5], [6]⟩
    rfl rfl (by decide)
  ⟨h.1, h.2.2.2.2⟩

/-! ### Claim C9 -/

/-- C9: the resolution gate samples exactly at counter values that are
multiples of the resolution — `shouldSample 0 100`, `shouldSample 100 100`
hold, `shouldSample k 100` fails for 1 ≤ k ≤ 99, resolution 1 always
samples — and each callback advances the counter by one: a gated-out callback
only increments the counter, a sampled callback appends one CSV record and
increments the counter. -/
theorem c9_resolution_gate (k n : Nat) (s s2 : MemFileState)
    (stats stats2 : List Int) (ok : Bool) (c : String)
    (h1 : 1 ≤ k) (h2 : k ≤ 99)
    (hskip : shouldSample s.opCounter s.resolution = false)
    (hss : shouldSample s2.opCounter s2.resolution = true)
    (hf : s2.file = some c) :
    shouldSample 0 100 = true
    ∧ shouldSample k 100 = false
    ∧ shouldSample 100 100 = true
    ∧ shouldSample n 1 = true
    ∧ advance n = n + 1
    ∧ memoryFileCaptureState s stats ok
        = some { s with opCounter := advance s.opCounter }
    ∧ memoryFileCaptureState s2 stats2 true
        = some { s2 with file := some (c ++ csvLine (stats2.map toString)),
                         opCounter := advance s2.opCounter } := by
  refine ⟨rfl, ?_, by decide, ?_, rfl, ?_, ?_⟩
  · simp only [shouldSample, beq_eq_false_iff_ne, ne_eq]
    omega
  · simp [shouldSample, Nat.mod_one]
  · simp [memoryFileCaptureState, hskip]
  · simp [memoryFileCaptureState, hss, hf]

/-- C9 witness: the gate at concrete counters — counter 5 is not sampled,
counter 3 only advances the counter, counter 0 appends a record. -/
theorem c9_witness :
    shouldSample 5 100 = false
    ∧ memoryFileCaptureState ⟨3, 100, some "x"⟩ [1] true = some ⟨4, 100, some "x"⟩
    ∧ memoryFileCaptureState ⟨0, 100, some "h\n"⟩ [2] true
        = some ⟨1, 100, some ("h\n" ++ csvLine [toString (2 : Int)])⟩ :=
  have h := c9_resolution_gate 5 7 ⟨3, 100, some "x"⟩ ⟨0, 100, some "h\n"⟩ [1] [2]
    true "h\n" (by decide) (by decide) (by decide) (by decide) rfl
  ⟨h.2.1, h.2.2.2.2.2.1, h.2.2.2.2.2.2⟩

/-! ### Claim C10 -/

/-- C10: both cost windows use the integer 0 as the "unset" sentinel — the
stored budget is 0 at creation and `CaptureStart` leaves it untouched;
whenever the stored budget is 0 the next boundary appends no cost delta and
merely stores its budget; a boundary reporting budget 0 re-arms the sentinel;
and the budget supplied at transaction start never influences any recorded
series (two runs differing only in the start budget are identical). -/
theorem c10_sentinel (t u : CycleState) (op uop : OpCode) (gas : Int)
    (smp usmp : Option Int) (tt : TimingState) (top : OpCode)
    (tgas topCost telapsed : Int) (g g2 : Int)
    (inputs : List (OpCode × Int × Option Int))
    (h0 : t.remainingGas = 0) (ht : tt.remainingGas = 0) :
    cycleInit.remainingGas = 0
    ∧ cycleCaptureStart g cycleInit = cycleInit
    ∧ ((cycleCaptureState t op gas smp).cost = t.cost
       ∧ (cycleCaptureState t op gas smp).remainingGas = gas)
    ∧ (cycleCaptureState u uop 0 usmp).remainingGas = 0
    ∧ timingInit.remainingGas = 0
    ∧ ((timingCaptureState tt top tgas topCost telapsed).cost = tt.cost
       ∧ (timingCaptureState tt top tgas topCost telapsed).remainingGas = tgas)
    ∧ cycleRun inputs (cycleCaptureStart g cycleInit)
        = cycleRun inputs (cycleCaptureStart g2 cycleInit) :=
  ⟨rfl, rfl,
   ⟨cycleCaptureState_cost_sentinel t op gas smp h0,
    cycleCaptureState_remainingGas t op gas smp⟩,
   cycleCaptureState_remainingGas u uop 0 usmp,
   rfl,
   ⟨timingCaptureState_cost_sentinel tt top tgas topCost telapsed ht,
    timingCaptureState_remainingGas tt top tgas topCost telapsed⟩,
   rfl⟩

/-- C10 witness: the sentinel behaviour at concrete states — the first
boundary after creation appends no cost delta and stores budget 900. -/
theorem c10_witness :
    (cycleCaptureState cycleInit OpCode.ADD 900 (some 1)).cost = cycleInit.cost
    ∧ (cycleCaptureState cycleInit OpCode.ADD 900 (some 1)).remainingGas = 900
    ∧ (timingCaptureState timingInit OpCode.ADD 900 3 1).cost = timingInit.cost :=
  have h := c10_sentinel cycleInit cycleInit .ADD .ADD 900 (some 1) (some 1)
    timingInit .ADD 900 3 1 1000 2000 [(OpCode.ADD, 900, some 1)] rfl rfl
  ⟨h.2.2.1.1, h.2.2.1.2, h.2.2.2.2.2.1.1⟩
